import Mathlib

/-!
Verification development for the embedded HTTP server engine
(`src/httpserver.h`, vendored in `pi-volume-control`).

The C code is shallowly embedded: C `int` fields are modelled as `Nat`
or `Int` (the code never relies on 32-bit wrap-around in the executions
covered by the theorems; where the C code *can* wrap or read out of
bounds this is noted in comments), buffers (`char*`) are `List Char`,
and the bit-flag fields are split into one `Bool` per flag bit.
-/

namespace HS

/-! ### Constants (macro definitions in httpserver.h, lines 316-371) -/

def HTTP_REQUEST_BUF_SIZE : Int := 1024
def HTTP_RESPONSE_BUF_SIZE : Int := 512
def HTTP_MAX_CONTENT_LENGTH : Int := 8388608
def HTTP_MAX_TOKEN_LENGTH : Nat := 8192
def HTTP_MAX_HEADER_COUNT : Nat := 127

-- token types / parser states
def HTTP_METHOD : Nat := 0
def HTTP_TARGET : Nat := 1
def HTTP_VERSION : Nat := 2
def HTTP_HEADER_KEY : Nat := 3
def HTTP_HEADER_VALUE : Nat := 4
def HTTP_HEADER_END : Nat := 5
def HTTP_NONE : Nat := 6
def HTTP_BODY : Nat := 7
def HTTP_PARSE_ERROR : Nat := 13

-- error sub types
def HTTP_ERR_PAYLOAD_TOO_LARGE : Nat := 0
def HTTP_ERR_BAD_REQUEST : Nat := 1

-- chunked token types / parser states
def HTTP_CHUNK_SIZE : Nat := 8
def HTTP_CHUNK_EXTN : Nat := 9
def HTTP_CHUNK_BODY : Nat := 10
def HTTP_CHUNK_BODY_END : Nat := 11

-- parser sub states
def HTTP_LWS : Nat := 2
def HTTP_CR : Nat := 3
def HTTP_CRLF : Nat := 4

-- parser sentinel length for chunked bodies
def HTTP_CHUNKED_LEN : Int := -1

/-! ### Data model -/

/-- `http_token_t` (httpserver.h lines 395-399).  `len` is an `Int`
because the chunked sentinel stores `-1` in it. -/
structure Token where
  index : Nat
  len : Int
  type : Nat
deriving Repr, DecidableEq

/-- `http_parser_t` (httpserver.h lines 401-413).  The C `char flags`
bit field (`HS_PF_CONTENT_LENGTH`, `HS_PF_TRANSFER_ENCODING`,
`HS_PF_CHUNKED`) is split into three `Bool`s. -/
structure Parser where
  content_length : Int := 0
  len : Nat := 0
  token_start_index : Nat := 0
  start : Nat := 0
  body_start_index : Nat := 0
  header_count : Nat := 0
  content_length_i : Nat := 0
  transfer_encoding_i : Nat := 0
  flag_content_length : Bool := false
  flag_transfer_encoding : Bool := false
  flag_chunked : Bool := false
  state : Nat := 0
  sub_state : Nat := 0
deriving Repr, DecidableEq

/-- Reading `input[i]`: the loops below only read indices `i < n` with
`n` at most the filled byte count, so the default is never significant
in the modelled executions. -/
def byteAt (input : List Char) (i : Nat) : Char :=
  input.getD i (Char.ofNat 0)

/-- The token `{ 0, 0, 0 }` with `type = HTTP_NONE` returned when the
parser exhausts its input (httpserver.h lines 759-761 and 858-860). -/
def noneToken : Token := ⟨0, 0, HTTP_NONE⟩

/-- Parse-error token from `hs_parse_error` (lines 604-611).  The C code
leaves `token.len` uninitialised; callers only inspect `type` and
`index`, we model the field as 0. -/
def hs_parse_error_token (subtype : Nat) : Token := ⟨subtype, 0, HTTP_PARSE_ERROR⟩

/-- Parser mutation performed by `hs_parse_error` (lines 604-611). -/
def hs_parse_error_update (p : Parser) : Parser :=
  { p with len := 0, state := HTTP_PARSE_ERROR }

/-- `HS_P_MATCH_HEADER(up, low, i)` (lines 601-602):
`if ((c == up[i] || c == low[i]) && i < sizeof(up) - 1) i++;`.
`sizeof(up) - 1` is the literal's length without the NUL terminator;
reading `up[i]` at `i = length` yields the NUL byte, modelled by the
`Char.ofNat 0` default. -/
def hs_match_header (up low : List Char) (c : Char) (i : Nat) : Nat :=
  if (c = up.getD i (Char.ofNat 0) ∨ c = low.getD i (Char.ofNat 0)) ∧ i < up.length
  then i + 1 else i

def HS_CONTENT_LENGTH_LOW : List Char := "content-length".toList
def HS_CONTENT_LENGTH_UP : List Char := "CONTENT-LENGTH".toList
def HS_TRANSFER_ENCODING_LOW : List Char := "transfer-encoding".toList
def HS_TRANSFER_ENCODING_UP : List Char := "TRANSFER-ENCODING".toList
def HS_CHUNKED_LOW : List Char := "chunked".toList
def HS_CHUNKED_UP : List Char := "CHUNKED".toList

/-! ### http_parse (lines 613-762)

The C loop is

  for (int i = parser->start; i < n; ++i, parser->start = i + 1, parser->len++)

so during the body at index `i` the `start` field holds whatever the
previous iteration stored (`i + 1`), except on the first iteration of a
call, where it still holds the entry value.  When the loop ends because
`i < n` fails, the last update has set `start = n + 1`.  `StepRes.cont`
results get the `start := i + 2, len := len + 1` update applied by the
driver `http_parse_go` (mirroring the loop's increment clause);
`StepRes.emit` returns immediately, leaving `start`/`len` as the body
left them.  `StepRes.rewind` models the `i--` in the `HTTP_HEADER_END`
state: C re-runs the loop body on the same byte in the new state after
performing the increment clause with `i` restored. -/

inductive StepRes where
  | emit (t : Token) (p : Parser)
  | cont (p : Parser)
  /-- the `continue` at line 686: like `cont`, the increment clause
  still runs, but the oversize-token check at lines 755-757 is
  skipped. -/
  | skip (p : Parser)
  | rewind (p : Parser)
deriving Repr

/-- The switch statement of `http_parse` (lines 616-754), one byte. -/
def parseSwitch (p : Parser) (c : Char) (i : Nat) : StepRes :=
  if p.state = HTTP_METHOD then
    if c = ' ' then
      .emit ⟨p.token_start_index, (p.len : Int), p.state⟩
        { p with state := HTTP_TARGET, len := 0, token_start_index := i + 1 }
    else .cont p
  else if p.state = HTTP_TARGET then
    if c = ' ' then
      .emit ⟨p.token_start_index, (p.len : Int), p.state⟩
        { p with state := HTTP_VERSION, token_start_index := i + 1, len := 0 }
    else .cont p
  else if p.state = HTTP_VERSION then
    if c = '\r' then
      .emit ⟨p.token_start_index, (p.len : Int), HTTP_VERSION⟩
        { p with sub_state := HTTP_CR }
    else if p.sub_state = HTTP_CR ∧ c = '\n' then
      .cont { p with sub_state := 0, len := 0, token_start_index := i + 1,
                     state := HTTP_HEADER_KEY }
    else .cont p
  else if p.state = HTTP_HEADER_KEY then
    if c = ':' then
      let p1 :=
        if p.len = p.content_length_i + 1 then { p with flag_content_length := true }
        else if p.len = p.transfer_encoding_i + 1 then { p with flag_transfer_encoding := true }
        else p
      .emit ⟨p1.token_start_index, (p1.len : Int) - 1, HTTP_HEADER_KEY⟩
        { p1 with state := HTTP_HEADER_VALUE, sub_state := HTTP_LWS,
                  content_length_i := 0, transfer_encoding_i := 0 }
    else
      .cont { p with
        content_length_i :=
          hs_match_header HS_CONTENT_LENGTH_UP HS_CONTENT_LENGTH_LOW c p.content_length_i,
        transfer_encoding_i :=
          hs_match_header HS_TRANSFER_ENCODING_UP HS_TRANSFER_ENCODING_LOW c p.transfer_encoding_i }
  else if p.state = HTTP_HEADER_VALUE then
    if p.sub_state = HTTP_LWS ∧ (c = ' ' ∨ c = '\t' ∨ c = '\r' ∨ c = '\n') then
      .skip p
    else if p.sub_state = HTTP_LWS then
      let p1 := { p with sub_state := 0, len := 0, token_start_index := i }
      if p1.flag_content_length then
        -- first value byte: plain `int` multiply-add, no 64-bit cap check
        .cont { p1 with content_length := p1.content_length * 10 + ((c.toNat : Int) - 48) }
      else if p1.flag_transfer_encoding then
        .cont { p1 with transfer_encoding_i :=
          hs_match_header HS_CHUNKED_UP HS_CHUNKED_LOW c p1.transfer_encoding_i }
      else .cont p1
    else if c = '\r' then
      let p1 := { p with sub_state := HTTP_CR, state := HTTP_HEADER_END,
                         flag_transfer_encoding := false, flag_content_length := false }
      let p2 := if p1.len = p1.transfer_encoding_i then { p1 with flag_chunked := true } else p1
      let p3 := { p2 with transfer_encoding_i := 0 }
      if p3.header_count = HTTP_MAX_HEADER_COUNT then
        .emit (hs_parse_error_token HTTP_ERR_BAD_REQUEST) (hs_parse_error_update p3)
      else
        .emit ⟨p3.token_start_index, (p3.len : Int), HTTP_HEADER_VALUE⟩
          { p3 with header_count := p3.header_count + 1 }
    else if p.flag_content_length then
      -- int64_t new_content_length = parser->content_length * 10l + (c - '0')
      let ncl : Int := p.content_length * 10 + ((c.toNat : Int) - 48)
      if ncl > HTTP_MAX_CONTENT_LENGTH then
        .emit (hs_parse_error_token HTTP_ERR_PAYLOAD_TOO_LARGE) (hs_parse_error_update p)
      else .cont { p with content_length := ncl }
    else if p.flag_transfer_encoding then
      .cont { p with transfer_encoding_i :=
        hs_match_header HS_CHUNKED_UP HS_CHUNKED_LOW c p.transfer_encoding_i }
    else .cont p
  else if p.state = HTTP_HEADER_END then
    if p.sub_state = 0 ∧ c = '\r' then .cont { p with sub_state := HTTP_CR }
    else if p.sub_state = HTTP_CR ∧ c = '\n' then .cont { p with sub_state := HTTP_CRLF }
    else if p.sub_state = HTTP_CRLF ∧ c = '\r' then
      .emit ⟨i + 2, (if p.flag_chunked then HTTP_CHUNKED_LEN else p.content_length), HTTP_BODY⟩
        { p with sub_state := 0, state := HTTP_BODY, body_start_index := i + 2,
                 start := p.start + 1 }
    else if p.sub_state = HTTP_CRLF then
      .rewind { p with sub_state := 0, len := 0, token_start_index := i,
                       state := HTTP_HEADER_KEY }
    else .cont p
  else
    -- states without a case label (HTTP_BODY, HTTP_PARSE_ERROR, chunk states)
    .cont p

/-- Loop body: the switch, followed by the oversize-token check at
lines 755-757 (`parser->len >= HTTP_MAX_TOKEN_LENGTH && parser->state
!= HTTP_BODY`, evaluated before the increment clause bumps `len`). -/
def parseStep (p : Parser) (c : Char) (i : Nat) : StepRes :=
  match parseSwitch p c i with
  | .cont p1 =>
      if p1.len ≥ HTTP_MAX_TOKEN_LENGTH ∧ p1.state ≠ HTTP_BODY then
        .emit (hs_parse_error_token HTTP_ERR_BAD_REQUEST) (hs_parse_error_update p1)
      else .cont p1
  | .skip p1 => .cont p1
  | r => r

/-- The for loop of `http_parse`.  `i` is the loop variable; the parser
carries `start` exactly as the C code leaves it at each point.  The
`fuel` argument makes the recursion structural (so that the kernel can
evaluate it); the loop advances `i` by one per unit of fuel, so any
`fuel ≥ n - i` makes the `fuel = 0` branch unreachable and
`http_parse` below passes `n + 1`. -/
def http_parse_go (input : List Char) (n : Nat) : Nat → Nat → Parser → Parser × Token
  | 0, _, p => (p, noneToken)
  | fuel + 1, i, p =>
    if i < n then
      match parseStep p (byteAt input i) i with
      | .emit t p1 => (p1, t)
      | .cont p1 => http_parse_go input n fuel (i + 1) { p1 with start := i + 2, len := p1.len + 1 }
      | .skip p1 => http_parse_go input n fuel (i + 1) { p1 with start := i + 2, len := p1.len + 1 }
      | .rewind p1 =>
        -- `i--` then the increment clause: i is restored, start := i + 1, len := 0 + 1
        match parseStep { p1 with start := i + 1, len := 1 } (byteAt input i) i with
        | .emit t p2 => (p2, t)
        | .cont p2 => http_parse_go input n fuel (i + 1) { p2 with start := i + 2, len := p2.len + 1 }
        | .skip p2 => http_parse_go input n fuel (i + 1) { p2 with start := i + 2, len := p2.len + 1 }
        | .rewind p2 => (p2, noneToken) -- unreachable: HTTP_HEADER_KEY never rewinds
    else (p, noneToken)

/-- `http_parse` (lines 613-762). -/
def http_parse (p : Parser) (input : List Char) (n : Nat) : Parser × Token :=
  http_parse_go input n (n + 1) p.start p

/-! ### Chunk parser (lines 764-867) -/

/-- `http_gen_body_token` (lines 767-776).  `start`/`len` are C ints;
in chunk mode `content_length` is the non-negative accumulated hex
size, so the `toNat` coercions are exact in reachable states. -/
def http_gen_body_token (p : Parser) : Token × Parser :=
  (⟨p.token_start_index, p.content_length, HTTP_CHUNK_BODY⟩,
   { p with start := ((p.token_start_index : Int) + p.content_length).toNat,
            len := p.content_length.toNat,
            state := HTTP_CHUNK_BODY_END })

inductive ChunkRes where
  | emit (t : Token) (p : Parser)
  | cont (p : Parser)
deriving Repr

/-- The switch statement of `http_chunk_parse` (lines 783-833), one
byte; `remaining = n - (i + 1)`. -/
def chunkSwitch (p : Parser) (c : Char) (i n : Nat) : ChunkRes :=
  let remaining : Int := (n : Int) - ((i : Int) + 1)
  if p.state = HTTP_CHUNK_SIZE then
    if c = ';' then .cont { p with state := HTTP_CHUNK_EXTN }
    else if c = '\n' then
      let p1 := { p with token_start_index := i + 1, len := 0 }
      if remaining ≥ p1.content_length then
        let (t, p2) := http_gen_body_token p1
        .emit t p2
      else .cont { p1 with state := HTTP_CHUNK_BODY }
    else if c = '\r' then .cont p
    else if 'A' ≤ c ∧ c ≤ 'F' then
      .cont { p with content_length := p.content_length * 16 + ((c.toNat : Int) - 55) }
    else if 'a' ≤ c ∧ c ≤ 'f' then
      .cont { p with content_length := p.content_length * 16 + ((c.toNat : Int) - 87) }
    else if '0' ≤ c ∧ c ≤ '9' then
      .cont { p with content_length := p.content_length * 16 + ((c.toNat : Int) - 48) }
    else .cont p
  else if p.state = HTTP_CHUNK_EXTN then
    if c = '\n' then
      if remaining ≥ p.content_length then
        let (t, p2) := http_gen_body_token { p with token_start_index := i + 1 }
        .emit t p2
      else .cont { p with token_start_index := i + 1, state := HTTP_CHUNK_BODY }
    else .cont p
  else if p.state = HTTP_CHUNK_BODY then
    if remaining ≥ p.content_length then
      let (t, p2) := http_gen_body_token p
      .emit t p2
    else .cont p
  else if p.state = HTTP_CHUNK_BODY_END then
    if c = '\n' then
      .cont { p with state := HTTP_CHUNK_SIZE, content_length := 0, len := 0,
                     token_start_index := i + 1 }
    else .cont p
  else .cont p

/-- The for loop of `http_chunk_parse` (same increment clause as
`http_parse`). Returns `none` when the buffer is exhausted.  As in
`http_parse_go`, `fuel ≥ n - i` makes the `fuel = 0` case unreachable. -/
def http_chunk_parse_go (input : List Char) (n : Nat) : Nat → Nat → Parser → Parser × Option Token
  | 0, _, p => (p, none)
  | fuel + 1, i, p =>
    if i < n then
      match chunkSwitch p (byteAt input i) i n with
      | .emit t p1 => (p1, some t)
      | .cont p1 =>
        http_chunk_parse_go input n fuel (i + 1) { p1 with start := i + 2, len := p1.len + 1 }
    else (p, none)

/-- Snapshot-semantics copy of `cnt` bytes from index `src` down to
index `dst ≤ src` (the `memcpy` at lines 852-855: destination below
source, so a forward byte copy equals the snapshot copy). -/
def listCopyWithin (buf : List Char) (dst src cnt : Nat) : List Char :=
  (List.range buf.length).map fun j =>
    if dst ≤ j ∧ j < dst + cnt then byteAt buf (src + (j - dst)) else byteAt buf j

/-- Result of `http_chunk_parse`: the parser, the (possibly compacted)
buffer, the new `request->bytes`, and the returned token. -/
structure ChunkOut where
  parser : Parser
  buf : List Char
  bytes : Nat
  token : Token
deriving Repr, DecidableEq

/-- `http_chunk_parse` (lines 778-861).  Callers pass
`input = request->buf` and `n = request->bytes`; the tail block (lines
840-857) compacts a partial token back to `body_start_index`.
`body_start_index + len - 1` is computed on C ints; in the modelled
states `len ≥ 1` holds, making the `Nat` subtraction exact. -/
def http_chunk_parse (p : Parser) (input : List Char) (n : Nat) : ChunkOut :=
  match http_chunk_parse_go input n (n + 1) p.start p with
  | (p1, some t) => ⟨p1, input, n, t⟩
  | (p1, none) =>
    if p1.token_start_index ≠ p1.body_start_index then
      let tsi := p1.token_start_index
      let start1 := p1.body_start_index + p1.len - 1
      let p2 := { p1 with start := start1, token_start_index := p1.body_start_index }
      let buf1 := if p1.len > 1 then listCopyWithin input p1.body_start_index tsi (n - tsi)
                  else input
      ⟨p2, buf1, start1, noneToken⟩
    else ⟨p1, input, n, noneToken⟩

/-- `http_parse_start_chunk_mode` (lines 863-867). -/
def http_parse_start_chunk_mode (p : Parser) : Parser :=
  { p with token_start_index := p.start, content_length := 0, state := HTTP_CHUNK_SIZE }

/-! ### Token-collecting driver (`hs_parse_tokens`, lines 945-956)

The C loop calls `http_parse` until it returns `HTTP_NONE` or a chunked
body token, pushing every non-NONE token onto the session token log.
The loop can fail to terminate on some byte streams (the parser need
not advance `start` when a token is emitted on the first byte it
examines), so the model takes explicit fuel; all theorems below use it
on concrete inputs with sufficient fuel. -/
def parseTokens (fuel : Nat) (p : Parser) (input : List Char) (n : Nat) :
    Parser × List Token :=
  match fuel with
  | 0 => (p, [])
  | fuel' + 1 =>
    let (p1, t) := http_parse p input n
    if t.type = HTTP_NONE then (p1, [])
    else if t.type = HTTP_BODY ∧ t.len = HTTP_CHUNKED_LEN then (p1, [t])
    else
      let (p2, ts) := parseTokens fuel' p1 input n
      (p2, t :: ts)

/-- One-pass parse of a complete buffer, as `hs_parse_tokens` performs
it when all bytes arrived before the first parse. -/
def onePassTokens (input : List Char) : List Token :=
  (parseTokens (input.length + 2) {} input input.length).2

/-- Incremental parse: the buffer grows through the given prefix
lengths (the last entry is the full length); after each growth the
session runs `hs_parse_tokens` again from the saved parser state, as
`HTTP_SESSION_READ_HEADERS` does on each read event. -/
def incrementalTokens (input : List Char) (cuts : List Nat) : List Token :=
  (cuts.foldl
    (fun (acc : Parser × List Token) (n : Nat) =>
      let (p1, ts) := parseTokens (input.length + 2) acc.1 input n
      (p1, acc.2 ++ ts))
    ({}, [])).2

/-! ### Request views (lines 1200-1335) -/

/-- `http_string_s` (lines 95-98): a borrowed view into the session
buffer, or the zeroed string `{ 0, 0 }` (NULL buffer pointer). -/
inductive HttpString where
  | null
  | view (off : Nat) (len : Int)
deriving Repr, DecidableEq

/-- `str.len`; the zeroed string has length 0. -/
def strLen : HttpString → Int
  | .null => 0
  | .view _ l => l

/-- `http_get_token_string` (lines 1200-1212): first token of the given
type in the session token log.  A freed token log is the empty list. -/
def http_get_token_string (tokens : List Token) (token_type : Nat) : HttpString :=
  match tokens.find? (fun t => t.type == token_type) with
  | some t => .view t.index t.len
  | none => .null

/-- `http_request_body` (lines 1231-1233). -/
def http_request_body (tokens : List Token) : HttpString :=
  http_get_token_string tokens HTTP_BODY

/-- ASCII lower-casing as done inside `hs_case_insensitive_cmp`
(lines 1216-1217): `c >= 'A' && c <= 'Z' ? c + 32 : c`. -/
def hs_lower (c : Char) : Char :=
  if 'A' ≤ c ∧ c ≤ 'Z' then Char.ofNat (c.toNat + 32) else c

/-- `hs_case_insensitive_cmp` (lines 1214-1221): compares the first
`len` bytes of `a` and `b` after lower-casing. -/
def hs_case_insensitive_cmp (a b : List Char) (len : Nat) : Bool :=
  (List.range len).all fun i => hs_lower (byteAt a i) == hs_lower (byteAt b i)

/-- `http_request_header` (lines 1276-1291): scan the token log for a
`HTTP_HEADER_KEY` token whose bytes case-insensitively equal `key`,
and return a view of the immediately following token.  (The C code
reads `tokens.buf[i + 1]` unconditionally; in parser-produced logs a
value token always follows a key token, so the `[]` case models the
same `{0,0}` result the function returns when nothing matches.) -/
def http_request_header (buf : List Char) (key : List Char) :
    List Token → HttpString
  | [] => .null
  | t :: rest =>
    if t.type = HTTP_HEADER_KEY ∧ t.len = (key.length : Int) ∧
       hs_case_insensitive_cmp (buf.drop t.index) key key.length then
      match rest with
      | v :: _ => .view v.index v.len
      | [] => .null
    else http_request_header buf key rest

/-- `hs_auto_detect_keep_alive` (lines 1305-1318), returning the new
value of the `HTTP_KEEP_ALIVE` flag bit. -/
def hs_auto_detect_keep_alive (tokens : List Token) (buf : List Char)
    (keep_alive : Bool) : Bool :=
  match http_get_token_string tokens HTTP_VERSION with
  | .null => keep_alive
  | .view off len =>
    let version : Bool := byteAt buf (off + (len - 1).toNat) = '1'
    let conn := http_request_header buf "Connection".toList tokens
    let connBytes : List Char :=
      match conn with
      | .null => []
      | .view coff _ => buf.drop coff
    if (strLen conn = 5 ∧ hs_case_insensitive_cmp connBytes "close".toList 5) ∨
       (strLen conn = 0 ∧ version = false) then false
    else true

/-! ### Response builder (lines 1337-1507)

The header list is a singly-linked prepend-only list, so the list head
is the most recently added header and `http_buffer_headers` emits the
headers in reverse insertion order. -/

structure Response where
  headers : List (String × String) := []
  body : Option String := none
  content_length : Int := 0
  status : Nat := 200
deriving Repr, DecidableEq

/-- `http_response_init` (lines 1339-1344): calloc-zeroed response with
`status = 200`. -/
def http_response_init : Response := {}

/-- `http_response_header` (lines 1346-1354): prepend. -/
def http_response_header (r : Response) (key value : String) : Response :=
  { r with headers := (key, value) :: r.headers }

/-- `http_response_status` (lines 1356-1358). -/
def http_response_status (r : Response) (status : Int) : Response :=
  { r with status := if status > 599 ∨ status < 100 then 500 else status.toNat }

/-- `http_response_body` (lines 1360-1363). -/
def http_response_body (r : Response) (body : String) (length : Int) : Response :=
  { r with body := some body, content_length := length }

/-! ### Status text table (lines 516-597)

The C initializer is missing a comma after the ninth string of the
500s row ( `"", "", "", "", ""` followed on the next line by
`"", "", ...` ), so two adjacent `""` literals concatenate into one and
the array has 599 elements instead of 600: indices 0-598, and
`hs_status_text[599]` is an out-of-bounds read. -/
def hs_status_text : List String :=
  List.replicate 100 ""
  ++ ["Continue", "Switching Protocols"] ++ List.replicate 98 ""
  ++ ["OK", "Created", "Accepted", "Non-Authoritative Information", "No Content",
      "Reset Content", "Partial Content"] ++ List.replicate 93 ""
  ++ ["Multiple Choices", "Moved Permanently", "Found", "See Other", "Not Modified",
      "Use Proxy", "", "Temporary Redirect"] ++ List.replicate 92 ""
  ++ ["Bad Request", "Unauthorized", "Payment Required", "Forbidden", "Not Found",
      "Method Not Allowed", "Not Acceptable", "Proxy Authentication Required",
      "Request Timeout", "Conflict",
      "Gone", "Length Required", "", "Payload Too Large"] ++ List.replicate 86 ""
  ++ ["Internal Server Error", "Not Implemented", "Bad Gateway", "Service Unavailable",
      "Gateway Timeout"] ++ List.replicate 94 ""

/-- The reason phrase the engine uses for a status code: the array
lookup `hs_status_text[status]` in `http_respond_headers` (line 1442).
For 599 the C read is out of bounds; the model returns "". -/
def statusReason (status : Nat) : String := hs_status_text.getD status ""

/-- Wire image of one header, from the format string `"%s: %s\r\n"`
(line 1418). -/
def headerLine (kv : String × String) : List Char :=
  kv.1.toList ++ ": ".toList ++ kv.2.toList ++ "\r\n".toList

/-- Wire image of the `Content-Length` header, from the format string
`"Content-Length: %d\r\n"` (line 1422). -/
def contentLengthLine (n : Int) : List Char :=
  "Content-Length: ".toList ++ (toString n).toList ++ "\r\n".toList

/-- `http_buffer_headers` (lines 1411-1425): user headers in list
order, then `Content-Length` for non-chunked responses, then the blank
line. -/
def http_buffer_headers (chunked_response : Bool) (r : Response) : List Char :=
  (r.headers.map headerLine).flatten
  ++ (if chunked_response then [] else contentLengthLine r.content_length)
  ++ "\r\n".toList

/-- The first half of the format string
`"HTTP/1.1 %d %s\r\nDate: %.24s\r\n"` at line 1441: the status line. -/
def statusLineChars (status : Nat) : List Char :=
  "HTTP/1.1 ".toList ++ (toString status).toList ++ " ".toList
    ++ (statusReason status).toList ++ "\r\n".toList

/-- The second half of the same format string: the `Date` header,
`%.24s` printing at most 24 bytes of the cached date string. -/
def dateLine (date : List Char) : List Char :=
  "Date: ".toList ++ date.take 24 ++ "\r\n".toList

/-- `http_respond_headers` (lines 1427-1445) for a session whose
keep-alive flag is already decided: prepends the `Connection` header,
emits the status line and `Date:`, then the header block. -/
def http_respond_headers (keep_alive : Bool) (date : List Char) (r : Response)
    (chunked_response : Bool) : List Char :=
  let r1 := http_response_header r "Connection" (if keep_alive then "keep-alive" else "close")
  statusLineChars r1.status ++ dateLine date ++ http_buffer_headers chunked_response r1

/-- The body copy in `http_respond` (lines 1474-1476): `grwmemcpy`
copies `content_length` bytes of the body when the pointer is set. -/
def respondBodyBytes (r : Response) : List Char :=
  match r.body with
  | some b => b.toList.take r.content_length.toNat
  | none => []

/-- The complete wire image built by `http_respond` (lines 1470-1478),
given the session's post-auto-detection keep-alive flag. -/
def http_respond_wire (keep_alive : Bool) (date : List Char) (r : Response) : List Char :=
  http_respond_headers keep_alive date r false ++ respondBodyBytes r

/-! ### hs_write_response (lines 997-1024) -/

/-- Where `hs_write_response` leaves the session once
`hs_write_client_socket` has run: broken pipe or a completed
non-keep-alive write destroy the session (`hs_end_session`); a short
write re-arms the writable event; a completed chunked write asks the
application for the next chunk; a completed keep-alive write returns
the session to `HTTP_SESSION_INIT`. -/
inductive WriteOutcome where
  | endSession
  | waitWritable
  | chunkNext
  | backToInit
deriving Repr, DecidableEq

def hs_write_response_outcome (epipe : Bool) (written bytes : Nat)
    (chunked_response keep_alive : Bool) : WriteOutcome :=
  if epipe then .endSession
  else if written ≠ bytes then .waitWritable
  else if chunked_response then .chunkNext
  else if keep_alive then .backToInit
  else .endSession

/-- `hs_error_response` (lines 1037-1044) followed by the
`hs_write_response` it triggers, for a session in the automatic
keep-alive mode (`hs_init_session` sets `HTTP_AUTOMATIC`), assuming the
error response is written in full with no broken pipe.  Produces the
wire bytes, the keep-alive flag decided by `hs_auto_detect_keep_alive`
inside `http_respond`, and the session's fate. -/
structure ErrorRespOut where
  wire : List Char
  keep_alive : Bool
  outcome : WriteOutcome
deriving Repr, DecidableEq

def hs_error_response (tokens : List Token) (buf : List Char) (date : List Char)
    (code : Int) (message : String) : ErrorRespOut :=
  let r0 := http_response_init
  let r1 := http_response_status r0 code
  let r2 := http_response_header r1 "Content-Type" "text/plain"
  let r3 := http_response_body r2 message (message.length : Int)
  let ka := hs_auto_detect_keep_alive tokens buf false
  let wire := http_respond_wire ka date r3
  ⟨wire, ka, hs_write_response_outcome false wire.length wire.length false ka⟩

/-! ### Memory accounting (claim C2)

The only code that touches `server->memused` is: the allocation and
doubling of the per-session read buffer in `hs_read_client_socket`
(lines 898-923), `hs_free_buffer` (lines 935-943), and the response
buffer bookkeeping in `grwprintf_init` / `grwmemcpy` / `grwprintf`
(lines 1372-1409).  `http_end_response` transfers the response buffer
to the session without touching `memused`.  The abstract state keeps
`memused` and the multiset of capacities of currently allocated
buffers; each step mirrors one of those code sites. -/

structure MemSt where
  memused : Int
  caps : Multiset Int

/-- One `memused`-relevant operation of the engine. -/
inductive MemStep : MemSt → MemSt → Prop
  /-- `hs_read_client_socket`, first read on a session (lines 899-905):
  `memused += HTTP_REQUEST_BUF_SIZE` and a buffer of that capacity is
  allocated. -/
  | readAlloc (s : MemSt) :
      MemStep s ⟨s.memused + HTTP_REQUEST_BUF_SIZE, HTTP_REQUEST_BUF_SIZE ::ₘ s.caps⟩
  /-- read-buffer doubling (lines 914-919): `memused -= capacity;
  capacity *= 2; memused += capacity`. -/
  | readGrow (s : MemSt) (c : Int) (hc : c ∈ s.caps) :
      MemStep s ⟨s.memused - c + 2 * c, 2 * c ::ₘ s.caps.erase c⟩
  /-- `hs_free_buffer` (lines 935-943): `memused -= capacity`, buffer
  freed. -/
  | freeBuf (s : MemSt) (c : Int) (hc : c ∈ s.caps) :
      MemStep s ⟨s.memused - c, s.caps.erase c⟩
  /-- `grwprintf_init` (lines 1372-1379): `memused += capacity`. -/
  | grwInit (s : MemSt) (c : Int) :
      MemStep s ⟨s.memused + c, c ::ₘ s.caps⟩
  /-- response-buffer growth in `grwmemcpy` (lines 1382-1388) or
  `grwprintf` (lines 1398-1402): `memused -= capacity; capacity = c';
  memused += capacity` (in `grwmemcpy` the new capacity is
  `size + size`, in `grwprintf` the doubling loop's result). -/
  | grwGrow (s : MemSt) (c c' : Int) (hc : c ∈ s.caps) :
      MemStep s ⟨s.memused - c + c', c' ::ₘ s.caps.erase c⟩

/-- The claimed invariant: the counter equals the summed capacity of
all live read/write buffers. -/
def memInv (s : MemSt) : Prop := s.memused = s.caps.sum

/-- Any interleaving of the engine's memory operations. -/
def MemSteps : MemSt → MemSt → Prop := Relation.ReflTransGen MemStep

/-! ### Specification-side definitions

These follow the spec's words, to be compared against the code-derived
definitions above. -/

/-- The reason phrases the table at lines 516-597 actually realises:
the standard texts for 100, 101, 200-206, 300-305, 307, 400-411, 413
and 500-504 (412 has an empty entry, and index 599 does not exist). -/
def amended_reason (n : Nat) : String :=
  if n = 100 then "Continue"
  else if n = 101 then "Switching Protocols"
  else if n = 200 then "OK"
  else if n = 201 then "Created"
  else if n = 202 then "Accepted"
  else if n = 203 then "Non-Authoritative Information"
  else if n = 204 then "No Content"
  else if n = 205 then "Reset Content"
  else if n = 206 then "Partial Content"
  else if n = 300 then "Multiple Choices"
  else if n = 301 then "Moved Permanently"
  else if n = 302 then "Found"
  else if n = 303 then "See Other"
  else if n = 304 then "Not Modified"
  else if n = 305 then "Use Proxy"
  else if n = 307 then "Temporary Redirect"
  else if n = 400 then "Bad Request"
  else if n = 401 then "Unauthorized"
  else if n = 402 then "Payment Required"
  else if n = 403 then "Forbidden"
  else if n = 404 then "Not Found"
  else if n = 405 then "Method Not Allowed"
  else if n = 406 then "Not Acceptable"
  else if n = 407 then "Proxy Authentication Required"
  else if n = 408 then "Request Timeout"
  else if n = 409 then "Conflict"
  else if n = 410 then "Gone"
  else if n = 411 then "Length Required"
  else if n = 413 then "Payload Too Large"
  else if n = 500 then "Internal Server Error"
  else if n = 501 then "Not Implemented"
  else if n = 502 then "Bad Gateway"
  else if n = 503 then "Service Unavailable"
  else if n = 504 then "Gateway Timeout"
  else ""

/-- ASCII-lower-cased byte list (spec side of case-insensitive
comparison). -/
def lowerChars (a : List Char) : List Char := a.map hs_lower

/-- The bytes a token denotes inside the session buffer. -/
def tokBytes (buf : List Char) (t : Token) : List Char :=
  (buf.drop t.index).take t.len.toNat

/-- The (key bytes, value bytes) pairs of a token log: each
`HTTP_HEADER_KEY` token paired with the token that immediately follows
it, as the request-view accessors consume them. -/
def headerPairsOf (buf : List Char) : List Token → List (List Char × List Char)
  | [] => []
  | t :: rest =>
    if t.type = HTTP_HEADER_KEY then
      (tokBytes buf t, (rest.head?.elim [] (tokBytes buf))) :: headerPairsOf buf rest
    else headerPairsOf buf rest

def connectionName : List Char := "connection".toList
def closeWord : List Char := "close".toList

/-- Claim C7's first condition, read literally: the request carries
(at least one) `Connection` header whose value is `close`,
case-insensitively. -/
def carriesConnectionClose (buf : List Char) (toks : List Token) : Prop :=
  ∃ pr ∈ headerPairsOf buf toks,
    lowerChars pr.1 = connectionName ∧ lowerChars pr.2 = closeWord

instance (buf : List Char) (toks : List Token) :
    Decidable (carriesConnectionClose buf toks) := by
  unfold carriesConnectionClose; exact inferInstance

/-- The request carries a `Connection` header at all. -/
def carriesConnectionHeader (buf : List Char) (toks : List Token) : Prop :=
  ∃ pr ∈ headerPairsOf buf toks, lowerChars pr.1 = connectionName

instance (buf : List Char) (toks : List Token) :
    Decidable (carriesConnectionHeader buf toks) := by
  unfold carriesConnectionHeader; exact inferInstance

/-- Value of the first `Connection` header in request order. -/
def firstConnValue (buf : List Char) (toks : List Token) : Option (List Char) :=
  ((headerPairsOf buf toks).find? fun pr => lowerChars pr.1 == connectionName).map (·.2)

/-- The close decision the code actually implements, stated from the
spec side: close when the first `Connection` header's value is `close`
case-insensitively, or when there is no `Connection` header and the
request is HTTP/1.0. -/
def amendedAutoClose (buf : List Char) (toks : List Token) (http10 : Bool) : Bool :=
  match firstConnValue buf toks with
  | some v => lowerChars v == closeWord
  | none => http10

/-- Well-formedness of a token log produced by the parser: every
`HTTP_HEADER_KEY` token is immediately followed by a (value) token of
length at least 1.  (The parser skips LWS, so an emitted header-value
token always contains at least one byte.) -/
def KeysFollowed : List Token → Prop
  | [] => True
  | [t] => t.type ≠ HTTP_HEADER_KEY
  | t :: v :: rest =>
    (t.type = HTTP_HEADER_KEY → 1 ≤ v.len) ∧ KeysFollowed (v :: rest)

instance instDecidableKeysFollowed : (toks : List Token) → Decidable (KeysFollowed toks)
  | [] => by unfold KeysFollowed; exact inferInstance
  | [_] => by unfold KeysFollowed; exact inferInstance
  | _ :: v :: rest =>
    have : Decidable (KeysFollowed (v :: rest)) := instDecidableKeysFollowed (v :: rest)
    by unfold KeysFollowed; exact inferInstance

/-- Every token references bytes inside the filled buffer. -/
def TokensInBounds (buf : List Char) (toks : List Token) : Prop :=
  ∀ t ∈ toks, 0 ≤ t.len ∧ t.index + t.len.toNat ≤ buf.length

instance (buf : List Char) (toks : List Token) :
    Decidable (TokensInBounds buf toks) := by
  unfold TokensInBounds; exact inferInstance

/-- Handler operations that set headers and a body but never call
`http_response_status` (claim C10). -/
inductive RespOp where
  | header (key value : String)
  | body (b : String) (len : Int)

def applyOp (r : Response) : RespOp → Response
  | .header k v => http_response_header r k v
  | .body b l => http_response_body r b l

def applyOps (ops : List RespOp) : Response :=
  ops.foldl applyOp http_response_init

/-! ### Concrete requests used in the closed theorems -/

def reqSimple : List Char := "GET / HTTP/1.1\r\nHost: a\r\n\r\n".toList

def reqChunked : List Char :=
  "POST / HTTP/1.1\r\nTransfer-Encoding: chunked\r\n\r\n".toList

def reqOversize : List Char := "GET / HTTP/1.1\r\nContent-Length: 99999999\r\n".toList

def reqDupConnection : List Char :=
  "GET / HTTP/1.1\r\nConnection: X\r\nConnection: close\r\n\r\n".toList

def reqConnClose : List Char :=
  "GET / HTTP/1.1\r\nConnection: Close\r\n\r\n".toList

def sampleDate : List Char := "Thu Jan  1 00:00:00 1970".toList

/-! ## Theorems -/

set_option maxRecDepth 100000

/-! ### Helper lemmas -/

theorem range_map_getD (f : Nat → String) (m n : Nat) (h : n < m) :
    ((List.range m).map f).getD n "" = f n := by
  have hl : n < ((List.range m).map f).length := by simpa using h
  rw [List.getD_eq_getElem _ _ hl]
  simp

theorem status_table_realised : hs_status_text = (List.range 599).map amended_reason := by
  decide

theorem memStep_preserves_inv (s t : MemSt) (h : MemStep s t) (hinv : memInv s) :
    memInv t := by
  cases h with
  | readAlloc =>
    simp only [memInv, Multiset.sum_cons] at *
    omega
  | readGrow c hc =>
    have hsum : c + (s.caps.erase c).sum = s.caps.sum := by
      rw [← Multiset.sum_cons, Multiset.cons_erase hc]
    simp only [memInv, Multiset.sum_cons] at *
    omega
  | freeBuf c hc =>
    have hsum : c + (s.caps.erase c).sum = s.caps.sum := by
      rw [← Multiset.sum_cons, Multiset.cons_erase hc]
    simp only [memInv] at *
    omega
  | grwInit c =>
    simp only [memInv, Multiset.sum_cons] at *
    omega
  | grwGrow c c' hc =>
    have hsum : c + (s.caps.erase c).sum = s.caps.sum := by
      rw [← Multiset.sum_cons, Multiset.cons_erase hc]
    simp only [memInv, Multiset.sum_cons] at *
    omega

theorem string_toList_take_length (s : String) : s.toList.take s.length = s.toList := by
  cases s
  simp [String.toList, String.length]

theorem byteAt_eq_getElem (l : List Char) (i : Nat) (h : i < l.length) :
    byteAt l i = l[i] := List.getD_eq_getElem l _ h

theorem chunkSwitch_shape (p : Parser) (c : Char) (i n : Nat) :
    (∃ t p1, chunkSwitch p c i n = .emit t p1 ∧ t.type = HTTP_CHUNK_BODY) ∨
    (∃ p1, chunkSwitch p c i n = .cont p1) := by
  unfold chunkSwitch http_gen_body_token
  dsimp only
  split_ifs <;> first
    | exact Or.inl ⟨_, _, rfl, rfl⟩
    | exact Or.inr ⟨_, rfl⟩

theorem chunk_go_some_token (input : List Char) (n : Nat) :
    ∀ (fuel i : Nat) (p p1 : Parser) (t : Token),
      http_chunk_parse_go input n fuel i p = (p1, some t) → t.type = HTTP_CHUNK_BODY := by
  intro fuel
  induction fuel with
  | zero =>
    intro i p p1 t h
    simp [http_chunk_parse_go] at h
  | succ f ih =>
    intro i p p1 t h
    rw [http_chunk_parse_go] at h
    by_cases hi : i < n
    · rw [if_pos hi] at h
      rcases chunkSwitch_shape p (byteAt input i) i n with ⟨t1, q1, hsw, hty⟩ | ⟨q1, hsw⟩
      · rw [hsw] at h
        obtain ⟨-, ht⟩ := Prod.mk.injEq .. ▸ h
        cases ht
        simpa using hty
      · rw [hsw] at h
        exact ih (i + 1) _ p1 t h
    · rw [if_neg hi] at h
      simp at h

theorem byteAt_listCopyWithin_inside (buf : List Char) (dst src cnt j : Nat)
    (h1 : dst ≤ j) (h2 : j < dst + cnt) (h3 : j < buf.length) :
    byteAt (listCopyWithin buf dst src cnt) j = byteAt buf (src + (j - dst)) := by
  unfold listCopyWithin
  have hl : j < ((List.range buf.length).map fun j =>
      if dst ≤ j ∧ j < dst + cnt then byteAt buf (src + (j - dst)) else byteAt buf j).length := by
    simpa using h3
  rw [byteAt, List.getD_eq_getElem _ _ hl]
  simp [h1, h2]

theorem byteAt_listCopyWithin_outside (buf : List Char) (dst src cnt j : Nat)
    (h1 : j < dst) (h3 : j < buf.length) :
    byteAt (listCopyWithin buf dst src cnt) j = byteAt buf j := by
  unfold listCopyWithin
  have hl : j < ((List.range buf.length).map fun j =>
      if dst ≤ j ∧ j < dst + cnt then byteAt buf (src + (j - dst)) else byteAt buf j).length := by
    simpa using h3
  rw [byteAt, List.getD_eq_getElem _ _ hl]
  have hno : ¬ (dst ≤ j ∧ j < dst + cnt) := by omega
  simp [hno]

theorem cmp_iff_lower (a key : List Char) (hk : key.length ≤ a.length) :
    hs_case_insensitive_cmp a key key.length = true ↔
    lowerChars (a.take key.length) = lowerChars key := by
  unfold hs_case_insensitive_cmp lowerChars
  rw [List.all_eq_true]
  constructor
  · intro h
    apply List.ext_getElem
    · simp [hk]
    · intro i h1 h2
      have hik : i < key.length := by simpa using h2
      have hia : i < a.length := by omega
      have hpt := h i (List.mem_range.mpr hik)
      simp only [beq_iff_eq] at hpt
      simp only [List.getElem_map, List.getElem_take]
      rw [← byteAt_eq_getElem a i hia, ← byteAt_eq_getElem key i hik]
      exact hpt
  · intro h i hi
    have hik := List.mem_range.mp hi
    have hia : i < a.length := by omega
    have hlen1 : i < ((a.take key.length).map hs_lower).length := by
      simp
      omega
    have hpt := List.getElem_of_eq h hlen1
    simp only [List.getElem_map, List.getElem_take] at hpt
    rw [byteAt_eq_getElem a i hia, byteAt_eq_getElem key i hik]
    simpa [beq_iff_eq] using hpt

theorem key_match_iff (buf key : List Char) (t : Token)
    (h0 : 0 ≤ t.len) (hb : t.index + t.len.toNat ≤ buf.length) :
    (t.len = (key.length : Int) ∧
      hs_case_insensitive_cmp (buf.drop t.index) key key.length = true)
    ↔ lowerChars (tokBytes buf t) = lowerChars key := by
  constructor
  · rintro ⟨hlen, hcmp⟩
    have htn : t.len.toNat = key.length := by omega
    unfold tokBytes
    rw [htn]
    have hk : key.length ≤ (buf.drop t.index).length := by
      simp
      omega
    exact (cmp_iff_lower _ _ hk).mp hcmp
  · intro h
    have hlen1 : (tokBytes buf t).length = key.length := by
      have := congrArg List.length h
      simpa [lowerChars] using this
    have htb : (tokBytes buf t).length = t.len.toNat := by
      unfold tokBytes
      simp
      omega
    have htn : t.len.toNat = key.length := by omega
    have hlen : t.len = (key.length : Int) := by omega
    refine ⟨hlen, ?_⟩
    have hk : key.length ≤ (buf.drop t.index).length := by
      simp
      omega
    apply (cmp_iff_lower _ _ hk).mpr
    unfold tokBytes at h
    rw [htn] at h
    exact h

theorem request_header_matches_pairs (buf key : List Char) :
    ∀ (toks : List Token), TokensInBounds buf toks → KeysFollowed toks →
      (http_request_header buf key toks = .null ∧
        (headerPairsOf buf toks).find?
          (fun pr => lowerChars pr.1 == lowerChars key) = none) ∨
      (∃ v pr, v ∈ toks ∧ 1 ≤ v.len ∧
        http_request_header buf key toks = .view v.index v.len ∧
        (headerPairsOf buf toks).find?
          (fun pr2 => lowerChars pr2.1 == lowerChars key) = some pr ∧
        pr.2 = tokBytes buf v) := by
  intro toks
  induction toks with
  | nil =>
    intro _ _
    left
    simp [http_request_header, headerPairsOf]
  | cons t rest ih =>
    intro hb hkf
    have hbt := hb t (List.mem_cons_self t rest)
    have hbrest : TokensInBounds buf rest := fun x hx => hb x (List.mem_cons_of_mem t hx)
    by_cases hkey : t.type = HTTP_HEADER_KEY
    · cases rest with
      | nil => exact absurd hkey hkf
      | cons v rest2 =>
        obtain ⟨hv, hkf2⟩ := hkf
        by_cases hmatch : lowerChars (tokBytes buf t) = lowerChars key
        · have hcode := (key_match_iff buf key t hbt.1 hbt.2).mpr hmatch
          right
          refine ⟨v, (tokBytes buf t, tokBytes buf v),
            List.mem_cons_of_mem _ (List.mem_cons_self _ _), hv hkey, ?_, ?_, rfl⟩
          · simp [http_request_header, hkey, hcode.1, hcode.2]
          · simp [headerPairsOf, hkey, List.find?_cons_of_pos, hmatch]
        · have hcode : ¬ (t.len = (key.length : Int) ∧
              hs_case_insensitive_cmp (buf.drop t.index) key key.length = true) :=
            fun hc => hmatch ((key_match_iff buf key t hbt.1 hbt.2).mp hc)
          have hcond : ¬ (t.type = HTTP_HEADER_KEY ∧ t.len = (key.length : Int) ∧
              hs_case_insensitive_cmp (buf.drop t.index) key key.length = true) := by
            intro hc
            exact hcode hc.2
          rcases ih hbrest hkf2 with ⟨hn, hf⟩ | ⟨v2, pr, hv2, hlen2, hcode2, hfind2, hpr⟩
          · left
            constructor
            · simp only [http_request_header]
              rw [if_neg hcond]
              exact hn
            · simp only [headerPairsOf, if_pos hkey]
              rw [List.find?_cons_of_neg _ (by simp [hmatch])]
              exact hf
          · right
            refine ⟨v2, pr, List.mem_cons_of_mem _ hv2, hlen2, ?_, ?_, hpr⟩
            · simp only [http_request_header]
              rw [if_neg hcond]
              exact hcode2
            · simp only [headerPairsOf, if_pos hkey]
              rw [List.find?_cons_of_neg _ (by simp [hmatch])]
              exact hfind2
    · have hcond : ¬ (t.type = HTTP_HEADER_KEY ∧ t.len = (key.length : Int) ∧
          hs_case_insensitive_cmp (buf.drop t.index) key key.length = true) := by
        intro hc
        exact hkey hc.1
      have hkf2 : KeysFollowed rest := by
        cases rest with
        | nil => trivial
        | cons v rest2 => exact hkf.2
      rcases ih hbrest hkf2 with ⟨hn, hf⟩ | ⟨v2, pr, hv2, hlen2, hcode2, hfind2, hpr⟩
      · left
        constructor
        · simp only [http_request_header]
          rw [if_neg hcond]
          exact hn
        · simp only [headerPairsOf, if_neg hkey]
          exact hf
      · right
        refine ⟨v2, pr, List.mem_cons_of_mem _ hv2, hlen2, ?_, ?_, hpr⟩
        · simp only [http_request_header]
          rw [if_neg hcond]
          exact hcode2
        · simp only [headerPairsOf, if_neg hkey]
          exact hfind2

theorem auto_keep_alive_eq_amended (toks : List Token) (buf : List Char) (voff : Nat)
    (http10 : Bool)
    (hb : TokensInBounds buf toks) (hkf : KeysFollowed toks)
    (hver : http_get_token_string toks HTTP_VERSION = .view voff 8)
    (hvb : (buf.drop voff).take 8
        = (if http10 then "HTTP/1.0".toList else "HTTP/1.1".toList)) :
    hs_auto_detect_keep_alive toks buf false = ! amendedAutoClose buf toks http10 := by
  have hdl : 8 ≤ (buf.drop voff).length := by
    have hlen := congrArg List.length hvb
    cases http10 <;> simp at hlen ⊢ <;> omega
  have hbl : voff + 8 ≤ buf.length := by
    simp at hdl
    omega
  have htl : 7 < ((buf.drop voff).take 8).length := by
    simp
    omega
  have hlast : byteAt buf (voff + 7) = (if http10 then '0' else '1') := by
    have hL : byteAt ((buf.drop voff).take 8) 7 = byteAt buf (voff + 7) := by
      rw [byteAt_eq_getElem _ 7 htl, byteAt_eq_getElem buf _ (by omega)]
      simp [List.getElem_take, List.getElem_drop]
    have hR : byteAt (if http10 = true then "HTTP/1.0".toList else "HTTP/1.1".toList) 7
        = (if http10 = true then '0' else '1') := by
      cases http10 <;> decide
    rw [← hL, hvb, hR]
  have predeq : (fun pr : List Char × List Char =>
      lowerChars pr.1 == lowerChars ("Connection".toList)) =
      (fun pr : List Char × List Char => lowerChars pr.1 == connectionName) := by
    funext pr
    rw [show lowerChars ("Connection".toList) = connectionName from by decide]
  unfold hs_auto_detect_keep_alive
  rw [hver]
  dsimp only
  have hlast7 : ((8 : Int) - 1).toNat = 7 := by decide
  rw [hlast7]
  rcases request_header_matches_pairs buf ("Connection".toList) toks hb hkf with
    ⟨hnull, hfind⟩ | ⟨v, pr, hv, hvlen, hview, hfind, hpr⟩
  · rw [hnull]
    unfold amendedAutoClose firstConnValue
    rw [predeq] at hfind
    rw [hfind]
    dsimp only [Option.map]
    cases http10 <;> simp [hlast, strLen]
  · rw [hview]
    unfold amendedAutoClose firstConnValue
    rw [predeq] at hfind
    rw [hfind]
    dsimp only [Option.map]
    rw [hpr]
    have hbv := hb v hv
    by_cases hclose : lowerChars (tokBytes buf v) = lowerChars ("close".toList)
    · have hc := (key_match_iff buf ("close".toList) v hbv.1 hbv.2).mpr hclose
      have hc5 : v.len = 5 := by
        have hc1 := hc.1
        rw [show (("close".toList).length : Int) = 5 from by decide] at hc1
        exact hc1
      have hcw : (lowerChars (tokBytes buf v) == closeWord) = true := by
        rw [show closeWord = lowerChars ("close".toList) from by decide]
        exact beq_iff_eq.mpr hclose
      rw [hcw]
      have hcmp5 : hs_case_insensitive_cmp (buf.drop v.index) ("close".toList) 5 = true := by
        have hcc := hc.2
        rwa [show ("close".toList).length = 5 from by decide] at hcc
      rw [if_pos (Or.inl ⟨hc5, hcmp5⟩)]
      rfl
    · have hcw : (lowerChars (tokBytes buf v) == closeWord) = false := by
        rw [show closeWord = lowerChars ("close".toList) from by decide]
        exact beq_eq_false_iff_ne.mpr hclose
      rw [hcw]
      have hnc : ¬ (v.len = 5 ∧
          hs_case_insensitive_cmp (buf.drop v.index) ("close".toList) 5 = true) := by
        rintro ⟨h5, hcmp⟩
        apply hclose
        apply (key_match_iff buf ("close".toList) v hbv.1 hbv.2).mp
        constructor
        · rw [h5]
          decide
        · rwa [show ("close".toList).length = 5 from by decide]
      have hv0 : ¬ ((v.len : Int) = 0) := by omega
      have hcond : ¬ ((strLen (HttpString.view v.index v.len) = 5 ∧
            hs_case_insensitive_cmp (buf.drop v.index) ("close".toList) 5 = true) ∨
          (strLen (HttpString.view v.index v.len) = 0 ∧
            decide (byteAt buf (voff + 7) = '1') = false)) := by
        rintro (⟨h5, hcmp⟩ | ⟨h0, h1⟩)
        · exact hnc ⟨h5, hcmp⟩
        · exact hv0 h0
      rw [if_neg hcond]
      rfl

theorem respond_headers_emission (ka : Bool) (date : List Char) (r : Response)
    (chunked : Bool) :
    http_respond_headers ka date r chunked =
      statusLineChars r.status ++ dateLine date
        ++ headerLine ("Connection", if ka then "keep-alive" else "close")
        ++ http_buffer_headers chunked r := by
  simp [http_respond_headers, http_buffer_headers, http_response_header, List.append_assoc]

theorem write_outcome_full (ka : Bool) (m : Nat) :
    hs_write_response_outcome false m m false ka
      = (if ka then WriteOutcome.backToInit else WriteOutcome.endSession) := by
  cases ka <;> simp [hs_write_response_outcome]

/-! ### Claim C1 -/

/-- C1: the claim states that feeding a request through `http_parse` in
arbitrary growing prefixes yields the same token stream as a one-pass
parse.  The code violates this: when the loop exhausts the buffer it
leaves `parser->start = n + 1`, so the resumed call skips the first
newly arrived byte.  Splitting `GET / HTTP/1.1\r\nHost: a\r\n\r\n`
after two bytes makes the parser skip the `T` (the saved `start` is 3
after consuming bytes 0 and 1) and emit a METHOD token of length 2
(`GE`), whereas the one-pass parse emits the METHOD token `GET` of
length 3, and the two token streams differ. -/
theorem c1_split_arrival_parse_diverges :
    (onePassTokens reqSimple).head? = some ⟨0, 3, HTTP_METHOD⟩ ∧
    (incrementalTokens reqSimple [2, reqSimple.length]).head? = some ⟨0, 2, HTTP_METHOD⟩ ∧
    incrementalTokens reqSimple [2, reqSimple.length] ≠ onePassTokens reqSimple ∧
    (parseTokens (reqSimple.length + 2) {} reqSimple 2).1.start = 3 := by
  decide

/-! ### Claim C2 -/

/-- C2: `server->memused` equals the summed `capacity` of all live
read/write buffers at every point between the memory-relevant
operations of the single-threaded engine, and whenever a request cycle
returns the live-buffer population to what it was (every cycle ends by
freeing its buffers through `hs_free_buffer`), `memused` returns to its
prior value. -/
theorem c2_memused_equals_live_capacity :
    (∀ s t, MemSteps s t → memInv s → memInv t) ∧
    (∀ s t, MemSteps s t → memInv s → t.caps = s.caps → t.memused = s.memused) := by
  have multi : ∀ s t, MemSteps s t → memInv s → memInv t := by
    intro s t h
    induction h with
    | refl => exact id
    | tail _ hstep ih =>
      intro hs
      exact memStep_preserves_inv _ _ hstep (ih hs)
  refine ⟨multi, ?_⟩
  intro s t h hinv hcaps
  have h1 := multi s t h hinv
  rw [memInv] at h1
  rw [memInv] at hinv
  rw [hcaps] at h1
  rw [h1, ← hinv]

/-- Witness for C2: allocating the request read buffer and freeing it
restores `memused` to its initial value 0. -/
theorem c2_memused_equals_live_capacity_witness :
    (MemSt.memused ⟨(MemSt.memused ⟨0, 0⟩ + HTTP_REQUEST_BUF_SIZE) - HTTP_REQUEST_BUF_SIZE,
        (HTTP_REQUEST_BUF_SIZE ::ₘ (0 : Multiset Int)).erase HTTP_REQUEST_BUF_SIZE⟩)
      = MemSt.memused ⟨0, 0⟩ := by
  have step1 : MemStep ⟨0, 0⟩
      ⟨MemSt.memused ⟨0, 0⟩ + HTTP_REQUEST_BUF_SIZE, HTTP_REQUEST_BUF_SIZE ::ₘ (0 : Multiset Int)⟩ :=
    MemStep.readAlloc ⟨0, 0⟩
  have step2 : MemStep
      ⟨MemSt.memused ⟨0, 0⟩ + HTTP_REQUEST_BUF_SIZE, HTTP_REQUEST_BUF_SIZE ::ₘ (0 : Multiset Int)⟩
      ⟨(MemSt.memused ⟨0, 0⟩ + HTTP_REQUEST_BUF_SIZE) - HTTP_REQUEST_BUF_SIZE,
        (HTTP_REQUEST_BUF_SIZE ::ₘ (0 : Multiset Int)).erase HTTP_REQUEST_BUF_SIZE⟩ :=
    MemStep.freeBuf _ HTTP_REQUEST_BUF_SIZE (by simp)
  exact c2_memused_equals_live_capacity.2 _ _
    (Relation.ReflTransGen.tail (Relation.ReflTransGen.single step1) step2)
    (by simp [memInv]) (by simp)

/-! ### Claim C3 -/

/-- C3 counterexample: the claim says the `content_length` accumulator
never exceeds `MAX_CONTENT_LENGTH` in any parser state and that hex
chunk-size parsing in `http_chunk_parse` checks the cap.  In fact
`http_chunk_parse` accumulates hex digits with no check at all: parsing
the chunk size `FFFFFF` stores 16777215 > 8388608 in `content_length`
and returns no `HTTP_PARSE_ERROR` token. -/
theorem c3_chunk_size_overflows_cap :
    (http_chunk_parse (http_parse_start_chunk_mode {}) "FFFFFF\r\n".toList 8).parser.content_length
      = 16777215 ∧
    ¬ ((16777215 : Int) ≤ HTTP_MAX_CONTENT_LENGTH) ∧
    (http_chunk_parse (http_parse_start_chunk_mode {}) "FFFFFF\r\n".toList 8).token.type
      ≠ HTTP_PARSE_ERROR := by
  decide

/-- C3 amended: in `http_parse`, a `Content-Length` digit after the
first one of a value is accumulated through the 64-bit
product-plus-digit and compared against the cap before being stored:
the step either reports `PAYLOAD_TOO_LARGE` (when the new value would
exceed the cap) or stores a value that is at most the cap.  (The first
digit of a value, handled in the LWS branch, and the hex chunk-size
accumulation in `http_chunk_parse` are unchecked.) -/
theorem c3_content_length_digit_checked (p : Parser) (c : Char) (i : Nat)
    (hst : p.state = HTTP_HEADER_VALUE) (hsub : p.sub_state ≠ HTTP_LWS)
    (hcr : c ≠ '\r') (hfl : p.flag_content_length = true) :
    (p.content_length * 10 + ((c.toNat : Int) - 48) > HTTP_MAX_CONTENT_LENGTH ∧
      parseSwitch p c i =
        .emit (hs_parse_error_token HTTP_ERR_PAYLOAD_TOO_LARGE) (hs_parse_error_update p)) ∨
    (p.content_length * 10 + ((c.toNat : Int) - 48) ≤ HTTP_MAX_CONTENT_LENGTH ∧
      parseSwitch p c i =
        .cont { p with content_length := p.content_length * 10 + ((c.toNat : Int) - 48) }) := by
  have hsub2 : ¬ (p.sub_state = 2) := by simpa [HTTP_LWS] using hsub
  by_cases hover : p.content_length * 10 + ((c.toNat : Int) - 48) > HTTP_MAX_CONTENT_LENGTH
  · left
    refine ⟨hover, ?_⟩
    simp [parseSwitch, hst, hsub2, hcr, hfl, hover, HTTP_METHOD, HTTP_TARGET, HTTP_VERSION,
      HTTP_HEADER_KEY, HTTP_HEADER_VALUE, HTTP_LWS]
  · right
    refine ⟨by omega, ?_⟩
    simp [parseSwitch, hst, hsub2, hcr, hfl, hover, HTTP_METHOD, HTTP_TARGET, HTTP_VERSION,
      HTTP_HEADER_KEY, HTTP_HEADER_VALUE, HTTP_LWS]

/-- Witness for the amended C3 theorem: with 838860 accumulated, the
digit 9 would reach 8388609 > 8388608 and the step reports
`PAYLOAD_TOO_LARGE`. -/
theorem c3_content_length_digit_checked_witness :
    ((838860 : Int) * 10 + (('9'.toNat : Int) - 48) > HTTP_MAX_CONTENT_LENGTH ∧
      parseSwitch { state := HTTP_HEADER_VALUE, sub_state := 0, flag_content_length := true,
                    content_length := 838860 } '9' 0 =
        .emit (hs_parse_error_token HTTP_ERR_PAYLOAD_TOO_LARGE)
          (hs_parse_error_update { state := HTTP_HEADER_VALUE, sub_state := 0,
                                   flag_content_length := true, content_length := 838860 })) ∨
    ((838860 : Int) * 10 + (('9'.toNat : Int) - 48) ≤ HTTP_MAX_CONTENT_LENGTH ∧
      parseSwitch { state := HTTP_HEADER_VALUE, sub_state := 0, flag_content_length := true,
                    content_length := 838860 } '9' 0 =
        .cont { state := HTTP_HEADER_VALUE, sub_state := 0, flag_content_length := true,
                content_length := (838860 : Int) * 10 + (('9'.toNat : Int) - 48) }) :=
  c3_content_length_digit_checked
    { state := HTTP_HEADER_VALUE, sub_state := 0, flag_content_length := true,
      content_length := 838860 } '9' 0 rfl (by decide) (by decide) rfl

/-! ### Claim C5 -/

/-- C5 counterexample: for a chunked request the body view's length is
the sentinel `-1` (`HTTP_CHUNKED_LEN`), not 0 as the claim states. -/
theorem c5_chunked_body_len_is_minus_one :
    strLen (http_request_body (onePassTokens reqChunked)) = -1 ∧ (-1 : Int) ≠ 0 := by
  decide

/-- C5 amended: `http_request_body` returns a view whose length equals
the `HTTP_BODY` token's length field: 0 for a request without a body,
but the sentinel `-1` (not 0) for a chunked request, whose body bytes
are reachable only through the chunk interface. -/
theorem c5_body_view_length :
    (∀ toks t, List.find? (fun tk => tk.type == HTTP_BODY) toks = some t →
        strLen (http_request_body toks) = t.len) ∧
    strLen (http_request_body (onePassTokens reqChunked)) = HTTP_CHUNKED_LEN ∧
    strLen (http_request_body (onePassTokens reqSimple)) = 0 := by
  refine ⟨?_, by decide, by decide⟩
  intro toks t h
  simp [http_request_body, http_get_token_string, h, strLen]

/-- Witness for C5: a log whose body token has length 0 yields a
zero-length view. -/
theorem c5_body_view_length_witness :
    strLen (http_request_body [(⟨27, 0, HTTP_BODY⟩ : Token)]) = (0 : Int) :=
  c5_body_view_length.1 [⟨27, 0, HTTP_BODY⟩] ⟨27, 0, HTTP_BODY⟩ (by decide)

/-! ### Claim C6 -/

/-- C6 counterexample: the claim includes 412 among the codes with
their standard reason text, but the table entry for 412 is the empty
string (the standard reason for 412 is `Precondition Failed`). -/
theorem c6_reason_412_empty :
    statusReason 412 = "" ∧ statusReason 412 ≠ "Precondition Failed" := by
  decide

/-- C6 amended: the status-line reasons the engine emits are the
standard texts for 100, 101, 200-206, 300-305, 307, 400-411, 413 and
500-504 and the empty string for every other code from 100 to 598
(412's entry is empty, not `Precondition Failed`); moreover the table
holds only 599 entries, so status 599 (which `http_response_status`
accepts) indexes out of bounds. -/
theorem c6_status_reason_table :
    hs_status_text.length = 599 ∧
    ¬ (599 < hs_status_text.length) ∧
    ∀ n, 100 ≤ n → n ≤ 598 →
      statusReason n = amended_reason n ∧
      statusLineChars n = "HTTP/1.1 ".toList ++ (toString n).toList ++ " ".toList
        ++ (amended_reason n).toList ++ "\r\n".toList := by
  refine ⟨by decide, by decide, ?_⟩
  intro n h1 h2
  have hr : statusReason n = amended_reason n := by
    rw [statusReason, status_table_realised, range_map_getD]
    omega
  exact ⟨hr, by rw [statusLineChars, hr]⟩

/-- Witness for C6 at 412: the table entry is empty. -/
theorem c6_status_reason_table_witness :
    statusReason 412 = amended_reason 412 ∧
    statusLineChars 412 = "HTTP/1.1 ".toList ++ (toString 412).toList ++ " ".toList
      ++ (amended_reason 412).toList ++ "\r\n".toList :=
  c6_status_reason_table.2.2 412 (by decide) (by decide)

/-! ### Claim C10 -/

/-- C10: `http_response_init` produces status 200, any sequence of
`http_response_header` / `http_response_body` calls (no
`http_response_status`) keeps the status at 200, the `Connection`
prepend inside `http_respond_headers` does not change the status, and
the status line emitted for status 200 is exactly
`HTTP/1.1 200 OK\r\n`. -/
theorem c10_default_status_is_200_ok :
    http_response_init.status = 200 ∧
    (∀ ops, (applyOps ops).status = 200) ∧
    (∀ r k v, (http_response_header r k v).status = r.status) ∧
    statusLineChars 200 = "HTTP/1.1 200 OK\r\n".toList := by
  refine ⟨rfl, ?_, fun r k v => rfl, by decide⟩
  intro ops
  have hfold : ∀ (l : List RespOp) (r : Response), (l.foldl applyOp r).status = r.status := by
    intro l
    induction l with
    | nil => intro r; rfl
    | cons op rest ih =>
      intro r
      rw [List.foldl_cons, ih]
      cases op <;> rfl
  exact hfold ops http_response_init

/-! ### Claim C4 -/

/-- C4 counterexample: the claim says the connection is closed after
every parse-error response and the session never re-enters INIT.  On
`GET / HTTP/1.1` with an oversized `Content-Length`, the parser
reports `PAYLOAD_TOO_LARGE` after the VERSION token is already in the
token log, so `hs_auto_detect_keep_alive` (called inside `http_respond`
because `HTTP_AUTOMATIC` is set) sees HTTP/1.1 with no `Connection`
header, sets `HTTP_KEEP_ALIVE`, and `hs_write_response` returns the
session to `HTTP_SESSION_INIT` instead of closing. -/
theorem c4_parse_error_keeps_connection_alive :
    (onePassTokens reqOversize).getLast?
      = some (hs_parse_error_token HTTP_ERR_PAYLOAD_TOO_LARGE) ∧
    (hs_error_response (onePassTokens reqOversize) reqOversize sampleDate 413
        "Payload Too Large").outcome = WriteOutcome.backToInit ∧
    WriteOutcome.backToInit ≠ WriteOutcome.endSession := by
  decide

/-- C4 amended: on a parse error the engine writes an internally
generated response whose wire image is the status line for the error
code, the `Date` header, a `Connection` header, the
`Content-Type: text/plain` header, `Content-Length`, the blank line and
the short plain-text body; after the full write the connection is
closed exactly when the automatic keep-alive detection decided close
(it re-enters INIT for keep-alive reuse otherwise, e.g. for an
HTTP/1.1 request whose version token was parsed before the error). -/
theorem c4_error_response_shape_and_fate (toks : List Token) (buf : List Char)
    (date : List Char) (code : Int) (msg : String) :
    (hs_error_response toks buf date code msg).keep_alive
        = hs_auto_detect_keep_alive toks buf false ∧
    (hs_error_response toks buf date code msg).wire =
      statusLineChars (if code > 599 ∨ code < 100 then 500 else code.toNat)
        ++ dateLine date
        ++ headerLine ("Connection",
            if hs_auto_detect_keep_alive toks buf false then "keep-alive" else "close")
        ++ headerLine ("Content-Type", "text/plain")
        ++ contentLengthLine (msg.length : Int)
        ++ "\r\n".toList ++ msg.toList ∧
    (hs_error_response toks buf date code msg).outcome
        = (if hs_auto_detect_keep_alive toks buf false then WriteOutcome.backToInit
           else WriteOutcome.endSession) := by
  refine ⟨rfl, ?_, ?_⟩
  · simp [hs_error_response, http_respond_wire, http_respond_headers, http_buffer_headers,
      http_response_init, http_response_status, http_response_header, http_response_body,
      respondBodyBytes, List.append_assoc, string_toList_take_length]
  · cases hka : hs_auto_detect_keep_alive toks buf false <;>
      simp [hs_error_response, hs_write_response_outcome, hka]

/-! ### Claim C7 -/

/-- C7 counterexample: the claim closes the connection whenever the
request carries a `Connection` header with value `close`.  The code
only inspects the first `Connection` header: on a request carrying
`Connection: X` followed by `Connection: close`, the request does carry
a close-valued `Connection` header, yet `hs_auto_detect_keep_alive`
decides keep-alive and the completed write puts the session back into
INIT rather than closing it. -/
theorem c7_second_connection_close_ignored :
    carriesConnectionClose reqDupConnection (onePassTokens reqDupConnection) ∧
    http_get_token_string (onePassTokens reqDupConnection) HTTP_VERSION = .view 6 8 ∧
    (reqDupConnection.drop 6).take 8 = "HTTP/1.1".toList ∧
    hs_auto_detect_keep_alive (onePassTokens reqDupConnection) reqDupConnection false = true ∧
    hs_write_response_outcome false 1 1 false true = .backToInit ∧
    WriteOutcome.backToInit ≠ WriteOutcome.endSession := by
  decide

/-- C7 amended: with automatic connection handling, the engine closes
iff the *first* `Connection` header in request order has value `close`
case-insensitively, or the request is HTTP/1.0 and carries no
`Connection` header; it emits the corresponding
`Connection: keep-alive` / `Connection: close` header right after the
status and `Date` lines, and after a complete non-chunked write the
session closes exactly in the close case and re-enters INIT otherwise. -/
theorem c7_auto_keep_alive_rule (toks : List Token) (buf : List Char) (voff : Nat)
    (http10 : Bool)
    (hb : TokensInBounds buf toks) (hkf : KeysFollowed toks)
    (hver : http_get_token_string toks HTTP_VERSION = .view voff 8)
    (hvb : (buf.drop voff).take 8
        = (if http10 then "HTTP/1.0".toList else "HTTP/1.1".toList)) :
    hs_auto_detect_keep_alive toks buf false = ! amendedAutoClose buf toks http10 ∧
    (∀ ka date r chunked,
      http_respond_headers ka date r chunked =
        statusLineChars r.status ++ dateLine date
          ++ headerLine ("Connection", if ka then "keep-alive" else "close")
          ++ http_buffer_headers chunked r) ∧
    (∀ m : Nat,
      hs_write_response_outcome false m m false (hs_auto_detect_keep_alive toks buf false)
        = (if amendedAutoClose buf toks http10 then WriteOutcome.endSession
           else WriteOutcome.backToInit)) := by
  have hdec := auto_keep_alive_eq_amended toks buf voff http10 hb hkf hver hvb
  refine ⟨hdec, fun ka date r chunked => respond_headers_emission ka date r chunked, ?_⟩
  intro m
  rw [hdec, write_outcome_full]
  cases amendedAutoClose buf toks http10 <;> rfl

/-- Witness for C7 on a concrete HTTP/1.1 request with
`Connection: Close`: the code's decision agrees with the amended rule. -/
theorem c7_auto_keep_alive_rule_witness :
    hs_auto_detect_keep_alive (onePassTokens reqConnClose) reqConnClose false
      = ! amendedAutoClose reqConnClose (onePassTokens reqConnClose) false :=
  (c7_auto_keep_alive_rule (onePassTokens reqConnClose) reqConnClose 6 false
    (by decide) (by decide) (by decide) (by decide)).1

/-! ### Claim C8 -/

/-- C8: when `http_chunk_parse` exhausts the filled buffer without a
token and the token in progress (spanning `token_start_index` to the
end of the buffer, so `len = n - token_start_index + 1`) started after
`body_start_index`, the tail block moves the partial token down to
`body_start_index`: the returned `request->bytes` and the parser's
`start` become `body_start_index` plus the partial length, the token
start becomes `body_start_index`, the parser's state, counters and
`body_start_index` are unchanged, the partial bytes are copied down,
and bytes below `body_start_index` are untouched, so the next call
resumes exactly as if the partial token had begun at
`body_start_index`. -/
theorem c8_chunk_buffer_compaction (p p1 : Parser) (input : List Char) (n : Nat)
    (hgo : http_chunk_parse_go input n (n + 1) p.start p = (p1, none))
    (hne : p1.token_start_index ≠ p1.body_start_index)
    (hlen : p1.len = n - p1.token_start_index + 1)
    (htsi : p1.token_start_index ≤ n)
    (hbsi : p1.body_start_index ≤ p1.token_start_index)
    (hn : n ≤ input.length) :
    (http_chunk_parse p input n).token = noneToken ∧
    (http_chunk_parse p input n).bytes
      = p1.body_start_index + (n - p1.token_start_index) ∧
    (http_chunk_parse p input n).parser.start
      = p1.body_start_index + (n - p1.token_start_index) ∧
    (http_chunk_parse p input n).parser.token_start_index = p1.body_start_index ∧
    (http_chunk_parse p input n).parser.state = p1.state ∧
    (http_chunk_parse p input n).parser.content_length = p1.content_length ∧
    (http_chunk_parse p input n).parser.len = p1.len ∧
    (http_chunk_parse p input n).parser.body_start_index = p1.body_start_index ∧
    (∀ k, k < n - p1.token_start_index →
      byteAt (http_chunk_parse p input n).buf (p1.body_start_index + k)
        = byteAt input (p1.token_start_index + k)) ∧
    (∀ j, j < p1.body_start_index →
      byteAt (http_chunk_parse p input n).buf j = byteAt input j) := by
  have hout : http_chunk_parse p input n =
      ⟨{ p1 with start := p1.body_start_index + p1.len - 1,
                 token_start_index := p1.body_start_index },
        (if p1.len > 1 then
          listCopyWithin input p1.body_start_index p1.token_start_index
            (n - p1.token_start_index)
         else input),
        p1.body_start_index + p1.len - 1, noneToken⟩ := by
    unfold http_chunk_parse
    rw [hgo]
    dsimp only
    rw [if_pos hne]
  rw [hout]
  dsimp only
  refine ⟨rfl, by omega, by omega, rfl, rfl, rfl, rfl, rfl, ?_, ?_⟩
  · intro k hk
    by_cases hgt : p1.len > 1
    · rw [if_pos hgt]
      rw [byteAt_listCopyWithin_inside input _ _ _ _ (by omega) (by omega) (by omega)]
      congr 1
      omega
    · omega
  · intro j hj
    by_cases hgt : p1.len > 1
    · rw [if_pos hgt]
      exact byteAt_listCopyWithin_outside input _ _ _ _ (by omega) (by omega)
    · rw [if_neg hgt]

/-- Witness for C8: parsing the partial chunk `5\r\nAB` (declared size
5 with only two body bytes buffered) compacts the two bytes to the
body start and sets the filled count to 2. -/
theorem c8_chunk_buffer_compaction_witness :
    (http_chunk_parse (http_parse_start_chunk_mode {}) "5\r\nAB".toList 5).bytes
      = 0 + (5 - 3) ∧
    byteAt (http_chunk_parse (http_parse_start_chunk_mode {}) "5\r\nAB".toList 5).buf (0 + 0)
      = byteAt "5\r\nAB".toList (3 + 0) :=
  have H := c8_chunk_buffer_compaction (http_parse_start_chunk_mode {})
    { content_length := 5, len := 3, token_start_index := 3, start := 6,
      body_start_index := 0, state := HTTP_CHUNK_BODY }
    "5\r\nAB".toList 5 (by decide) (by decide) (by decide) (by decide) (by decide) (by decide)
  ⟨H.2.1, H.2.2.2.2.2.2.2.2.1 0 (by decide)⟩

/-! ### Claim C9 -/

/-- C9: `http_chunk_parse` never returns an `HTTP_PARSE_ERROR` token:
for every buffer and every parser state its token is either an
`HTTP_CHUNK_BODY` token or the `HTTP_NONE` sentinel, and in the
`HTTP_CHUNK_SIZE` state a byte that is not a hex digit, `;`, CR or LF
leaves the parser completely unchanged, so malformed chunked framing
can never reach the session's 400 path (which fires only on an
`HTTP_PARSE_ERROR` token). -/
theorem c9_chunk_parse_never_errors :
    (∀ (p : Parser) (input : List Char) (n : Nat),
      (http_chunk_parse p input n).token.type = HTTP_CHUNK_BODY ∨
      (http_chunk_parse p input n).token.type = HTTP_NONE) ∧
    (∀ (p : Parser) (input : List Char) (n : Nat),
      (http_chunk_parse p input n).token.type ≠ HTTP_PARSE_ERROR) ∧
    (∀ (p : Parser) (c : Char) (i n : Nat),
      p.state = HTTP_CHUNK_SIZE → c ≠ ';' → c ≠ '\n' → c ≠ '\r' →
      ¬ ('A' ≤ c ∧ c ≤ 'F') → ¬ ('a' ≤ c ∧ c ≤ 'f') → ¬ ('0' ≤ c ∧ c ≤ '9') →
      chunkSwitch p c i n = .cont p) := by
  have main : ∀ (p : Parser) (input : List Char) (n : Nat),
      (http_chunk_parse p input n).token.type = HTTP_CHUNK_BODY ∨
      (http_chunk_parse p input n).token.type = HTTP_NONE := by
    intro p input n
    unfold http_chunk_parse
    rcases hgo : http_chunk_parse_go input n (n + 1) p.start p with ⟨p1, st⟩
    cases st with
    | some t =>
      left
      simpa using chunk_go_some_token input n (n + 1) p.start p p1 t hgo
    | none =>
      right
      dsimp only
      split_ifs <;> rfl
  refine ⟨main, ?_, ?_⟩
  · intro p input n
    rcases main p input n with h | h <;> rw [h] <;> decide
  · intro p c i n hst h1 h2 h3 h4 h5 h6
    simp [chunkSwitch, hst, h1, h2, h3, h4, h5, h6, HTTP_CHUNK_SIZE, HTTP_CHUNK_EXTN,
      HTTP_CHUNK_BODY, HTTP_CHUNK_BODY_END]

/-- Witness for C9 at a concrete state and junk byte: the byte `z` in
`HTTP_CHUNK_SIZE` is ignored outright. -/
theorem c9_chunk_parse_never_errors_witness :
    ((http_chunk_parse {} [] 0).token.type = HTTP_CHUNK_BODY ∨
      (http_chunk_parse {} [] 0).token.type = HTTP_NONE) ∧
    chunkSwitch { state := HTTP_CHUNK_SIZE } 'z' 0 5 = .cont { state := HTTP_CHUNK_SIZE } :=
  ⟨c9_chunk_parse_never_errors.1 {} [] 0,
    c9_chunk_parse_never_errors.2.2 { state := HTTP_CHUNK_SIZE } 'z' 0 5 rfl
      (by decide) (by decide) (by decide) (by decide) (by decide) (by decide)⟩

end HS
